import Mathlib

/-!
# Verification of the SQMC dimension-sweep benchmark script

Shallow embedding of `book/sqmc/sqmc_as_dim_grows.py` (from the `particles`
repository).  The script builds a registry of linear-Gaussian filtering
problems (`models`), runs an external batch runner (`particles.multiSMC`),
and then aggregates the per-replication estimates into a table of
logarithmic efficiency gains (`results_mse`, turned into the data frame
`df`).

The aggregation arithmetic is performed by numpy on floating point values.
We embed the values as exact rationals extended with numpy's special values
(`nan`, `inf`, `-inf`), which is what `np.mean` of an empty array and
`np.log10` of zero / negative numbers produce.  The final `log10_gain` is a
real number (or a special value), since `log10` of a rational is a real.
-/

/-- numpy-style scalar over exact rationals: a finite value, `nan`
(`np.mean` of an empty array), `inf` or `-inf`. -/
inductive NpFQ where
  | nan : NpFQ
  | pinf : NpFQ
  | ninf : NpFQ
  | fin : ℚ → NpFQ
  deriving DecidableEq, Repr

/-- numpy-style scalar over the reals, used for the `log10_gain` values
(logarithms of rationals are real numbers). -/
inductive NpFR where
  | nan : NpFR
  | pinf : NpFR
  | ninf : NpFR
  | fin : ℝ → NpFR

/-- Negation, IEEE-754 style: `-nan = nan`, `-inf = -inf` etc. -/
def npNegQ : NpFQ → NpFQ
  | .nan => .nan
  | .pinf => .ninf
  | .ninf => .pinf
  | .fin x => .fin (-x)

/-- Addition, IEEE-754 style: `nan` absorbs, `inf + (-inf) = nan`. -/
def npAddQ : NpFQ → NpFQ → NpFQ
  | .nan, _ => .nan
  | _, .nan => .nan
  | .pinf, .ninf => .nan
  | .ninf, .pinf => .nan
  | .pinf, _ => .pinf
  | _, .pinf => .pinf
  | .ninf, _ => .ninf
  | _, .ninf => .ninf
  | .fin a, .fin b => .fin (a + b)

/-- Subtraction as addition of the negation. -/
def npSubQ (a b : NpFQ) : NpFQ := npAddQ a (npNegQ b)

/-- Squaring (`** 2` in the source): `nan` stays `nan`, infinities square
to `+inf`. -/
def npSqQ : NpFQ → NpFQ
  | .nan => .nan
  | .pinf => .pinf
  | .ninf => .pinf
  | .fin x => .fin (x ^ 2)

/-- Division of a numpy scalar by a (positive) array length. -/
def npDivNat : NpFQ → ℕ → NpFQ
  | .nan, _ => .nan
  | .pinf, _ => .pinf
  | .ninf, _ => .ninf
  | .fin x, n => .fin (x / n)

/-- Embedding of `np.mean` of a (plain rational) array: `nan` on the empty array,
otherwise the sum divided by the length. -/
def npMeanQ (l : List ℚ) : NpFQ :=
  if l.length = 0 then .nan else .fin (l.sum / l.length)

/-- Embedding of `np.var` of a (plain rational) array: `nan` on the empty
array, otherwise the mean of squared deviations from the mean (`ddof = 0`). -/
def npVarQ (l : List ℚ) : NpFQ :=
  if l.length = 0 then .nan
  else
    .fin (((l.map (fun x => (x - l.sum / l.length) ^ 2)).sum) / l.length)

/-- Embedding of `np.mean` of an array of numpy scalars (the squared deviations may be
`nan` when the baseline mean is `nan`): `nan` on the empty array, otherwise
the numpy sum divided by the length. -/
def npMeanList (l : List NpFQ) : NpFQ :=
  if l.length = 0 then .nan else npDivNat (l.foldl npAddQ (.fin 0)) l.length

/-- Real-valued negation of a numpy scalar. -/
def npNegR : NpFR → NpFR
  | .nan => .nan
  | .pinf => .ninf
  | .ninf => .pinf
  | .fin x => .fin (-x)

/-- Real-valued addition of numpy scalars, IEEE-754 style. -/
def npAddR : NpFR → NpFR → NpFR
  | .nan, _ => .nan
  | _, .nan => .nan
  | .pinf, .ninf => .nan
  | .ninf, .pinf => .nan
  | .pinf, _ => .pinf
  | _, .pinf => .pinf
  | .ninf, _ => .ninf
  | _, .ninf => .ninf
  | .fin a, .fin b => .fin (a + b)

/-- Embedding of `np.log10` of a numpy scalar: `log10 0 = -inf` (with only a runtime
warning in numpy), `log10` of a negative number is `nan`, `log10 inf = inf`,
`log10 (-inf) = nan`, `log10 nan = nan`. -/
noncomputable def npLog10 : NpFQ → NpFR
  | .nan => .nan
  | .pinf => .pinf
  | .ninf => .nan
  | .fin q => if 0 < q then .fin (Real.logb 10 (q : ℝ))
              else if q = 0 then .ninf else .nan

/-- The value `-np.log10(mse) + np.log10(base_mse)`, exactly as written in
the source. -/
noncomputable def gainOf (mse base_mse : NpFQ) : NpFR :=
  npAddR (npNegR (npLog10 mse)) (npLog10 base_mse)

/-! ## The experiment configuration and registry -/

/-- The sweep `dims = range(5, 21, 5)` from the script. -/
def dims : List ℕ := [5, 10, 15, 20]

/-- The horizon `T = 50` from the script. -/
def T : ℕ := 50

/-- A registered filtering problem: algorithm kind (`"boot"` or
`"guided"`) together with the model dimension.  The model instance and the
simulated data attached to it live in the external library and are not
needed for the claims about the registry. -/
structure ProblemInstance where
  kind : String
  dim : ℕ
  deriving DecidableEq, Repr

/-- The `models` ordered dictionary of the script, as an association list
(insertion order preserved): for each dimension `d`, the script inserts
`boot_<d>` and then `guided_<d>`. -/
def models (ds : List ℕ) : List (String × ProblemInstance) :=
  ds.flatMap (fun d =>
    [("boot_" ++ toString d, ⟨"boot", d⟩),
     ("guided_" ++ toString d, ⟨"guided", d⟩)])

/-! ## Replication results and the aggregation loop -/

/-- One record of the collection returned by `particles.multiSMC`: the
problem name it was run for (`r['fk']`, e.g. `"guided_5"`), the driving
mode flag (`r['qmc']`), and the per-time-step scalar estimates
`r['output'].summaries.moments[t]['mean'][0]`, embedded as the trajectory
list. -/
structure RepResult where
  fk : String
  qmc : Bool
  traj : List ℚ
  deriving DecidableEq, Repr

/-- The function `estimate = lambda r: r['output'].summaries.moments[t]['mean'][0]`. -/
def estimate (t : ℕ) (r : RepResult) : ℚ := r.traj.getD t 0

/-- The list comprehension
`[estimate(r) for r in results if r['qmc']==qmc and r['fk']==type_fk+'_%i'%d]`. -/
def gather (results : List RepResult) (d t : ℕ) (type_fk : String)
    (qmc : Bool) : List ℚ :=
  (results.filter
    (fun r => r.qmc == qmc && r.fk == type_fk ++ "_" ++ toString d)).map
    (estimate t)

/-- One row appended to `results_mse`: the dictionary
`{'fk':type_fk, 'dim':d, 'qmc':qmc, 't':t, 'log10_gain':log10_gain}`. -/
structure Row where
  fk : String
  dim : ℕ
  qmc : Bool
  t : ℕ
  log10_gain : NpFR

/-- The mutable state of the aggregation loop: the `base_mean` and
`base_mse` variables (assigned in the reference branch, read in the other
branch) and the `results_mse` accumulator list. -/
structure AggState where
  base_mean : NpFQ
  base_mse : NpFQ
  rows : List Row

/-- The iteration order of the two inner loops,
`for type_fk in ['guided', 'boot']: for qmc in [False, True]`. -/
def cellOrder : List (String × Bool) :=
  [("guided", false), ("guided", true), ("boot", false), ("boot", true)]

/-- The body of the innermost loop: for the reference category
(`type_fk=='guided' and qmc==False`) assign `base_mean = np.mean(est)` and
`base_mse = np.var(est)`; otherwise compute
`mse = np.mean((est-base_mean)**2)`,
`log10_gain = -np.log10(mse) + np.log10(base_mse)` and append a row. -/
noncomputable def cellStep (results : List RepResult) (d t : ℕ)
    (type_fk : String) (qmc : Bool) (s : AggState) : AggState :=
  let est := gather results d t type_fk qmc
  if type_fk = "guided" ∧ qmc = false then
    { s with base_mean := npMeanQ est, base_mse := npVarQ est }
  else
    let mse := npMeanList (est.map (fun e => npSqQ (npSubQ (.fin e) s.base_mean)))
    let log10_gain := gainOf mse s.base_mse
    { s with rows := s.rows ++ [⟨type_fk, d, qmc, t, log10_gain⟩] }

/-- Processing of one `(d, t)` pair: the two inner loops over
`cellOrder`. -/
noncomputable def processPairs (results : List RepResult) (d t : ℕ)
    (s : AggState) : AggState :=
  cellOrder.foldl (fun s p => cellStep results d t p.1 p.2 s) s

/-- The full aggregation loop building `results_mse`: for each dimension,
for each time step, process the four (algorithm kind, qmc) cells in source
order.  In Python `base_mean` / `base_mse` start out unassigned; reading
them before the first reference cell would be a `NameError`, and the loop
order guarantees the reference cell always comes first, so the initial
`nan` values here are provably never read (see the ordering theorems
below). -/
noncomputable def results_mse (ds : List ℕ) (tsteps : ℕ)
    (results : List RepResult) : List Row :=
  (ds.foldl
    (fun s d =>
      (List.range tsteps).foldl (fun s t => processPairs results d t s) s)
    ⟨.nan, .nan, []⟩).rows

/-- A row of the final data frame `df`: the `results_mse` fields plus the
derived label `df['fk_qmc'] = df['fk'] + df['qmc'].map({True:' SQMC',
False:' SMC'})`. -/
structure TableRow where
  row : Row
  fk_qmc : String

/-- The data frame built from `results_mse`: one table row per record,
with the combined label appended. -/
noncomputable def df (ds : List ℕ) (tsteps : ℕ)
    (results : List RepResult) : List TableRow :=
  (results_mse ds tsteps results).map
    (fun r => ⟨r, r.fk ++ (if r.qmc then " SQMC" else " SMC")⟩)

/-! ## Concrete replication collections used by the tests below -/

/-- Replication collection realizing the spec's concrete scenario. -/
def reps_example : List RepResult :=
  [⟨"guided_5", false, [1]⟩, ⟨"guided_5", false, [1]⟩,
   ⟨"guided_5", false, [1]⟩, ⟨"guided_5", false, [3]⟩,
   ⟨"boot_5", false, [2]⟩, ⟨"boot_5", false, [2]⟩,
   ⟨"boot_5", false, [2]⟩, ⟨"boot_5", false, [2]⟩]

/-- Reference estimates `[0, 0, 2, 2]` (mean 1, variance 1) and a
bootstrap pseudo-random cell whose estimates all equal the reference mean,
so that `mse = 0`. -/
def reps_degenerate : List RepResult :=
  [⟨"guided_5", false, [0]⟩, ⟨"guided_5", false, [0]⟩,
   ⟨"guided_5", false, [2]⟩, ⟨"guided_5", false, [2]⟩,
   ⟨"boot_5", false, [1]⟩, ⟨"boot_5", false, [1]⟩,
   ⟨"boot_5", false, [1]⟩, ⟨"boot_5", false, [1]⟩]

/-- Collection in which the bootstrap pseudo-random cell has no
replications at all: only the reference category is present. -/
def reps_missing : List RepResult :=
  [⟨"guided_5", false, [1]⟩, ⟨"guided_5", false, [2]⟩]

/-- Collection in which the bootstrap pseudo-random estimates are
literally the same list as the reference estimates, but with zero
variance: the emitted gain is then `inf + (-inf) = nan`, not `0`. -/
def reps_equal : List RepResult :=
  [⟨"guided_5", false, [1]⟩, ⟨"guided_5", false, [1]⟩,
   ⟨"boot_5", false, [1]⟩, ⟨"boot_5", false, [1]⟩]

/-- Collection in which the bootstrap pseudo-random estimates
`[3, 1, 1, 1]` are a (non-trivial) permutation of the reference estimates
`[1, 1, 1, 3]`, whose variance `3/4` is positive. -/
def reps_perm : List RepResult :=
  [⟨"guided_5", false, [1]⟩, ⟨"guided_5", false, [1]⟩,
   ⟨"guided_5", false, [1]⟩, ⟨"guided_5", false, [3]⟩,
   ⟨"boot_5", false, [3]⟩, ⟨"boot_5", false, [1]⟩,
   ⟨"boot_5", false, [1]⟩, ⟨"boot_5", false, [1]⟩]

/-- The grouping key of a result row: (dimension, time step,
algorithm kind, driving mode). -/
def rowKey (r : Row) : ℕ × ℕ × String × Bool := (r.dim, r.t, r.fk, r.qmc)

/-! ## Characterization of the aggregation loop

The loop threads the mutable `base_mean` / `base_mse` through all
iterations; the lemmas below show that each `(d, t)` cell is in fact
computed from the baseline statistics freshly gathered at that same
`(d, t)`. -/

/-- The mean-squared error of a non-reference cell against the reference
category's mean at the same `(d, t)`:
`np.mean((est - base_mean)**2)` with `base_mean = np.mean` of the guided
pseudo-random estimates at `(d, t)`. -/
noncomputable def mseOf (results : List RepResult) (d t : ℕ)
    (type_fk : String) (qmc : Bool) : NpFQ :=
  npMeanList ((gather results d t type_fk qmc).map
    (fun e => npSqQ (npSubQ (.fin e)
      (npMeanQ (gather results d t "guided" false)))))

/-- The three rows emitted at a given `(d, t)`, in source iteration
order, each computed from the baseline statistics of that `(d, t)`. -/
noncomputable def cellRows (results : List RepResult) (d t : ℕ) :
    List Row :=
  [⟨"guided", d, true, t,
      gainOf (mseOf results d t "guided" true)
        (npVarQ (gather results d t "guided" false))⟩,
   ⟨"boot", d, false, t,
      gainOf (mseOf results d t "boot" false)
        (npVarQ (gather results d t "guided" false))⟩,
   ⟨"boot", d, true, t,
      gainOf (mseOf results d t "boot" true)
        (npVarQ (gather results d t "guided" false))⟩]

lemma processPairs_eq (results : List RepResult) (d t : ℕ) (s : AggState) :
    processPairs results d t s
      = ⟨npMeanQ (gather results d t "guided" false),
         npVarQ (gather results d t "guided" false),
         s.rows ++ cellRows results d t⟩ := by
  simp [processPairs, cellOrder, cellStep, cellRows, mseOf]

lemma foldl_timeLoop_rows (results : List RepResult) (d : ℕ)
    (l : List ℕ) (s : AggState) :
    (l.foldl (fun s t => processPairs results d t s) s).rows
      = s.rows ++ l.flatMap (fun t => cellRows results d t) := by
  induction l generalizing s with
  | nil => simp
  | cons t l ih =>
      rw [List.foldl_cons, ih, processPairs_eq]
      simp [List.append_assoc]

lemma foldl_dims_rows (results : List RepResult) (tsteps : ℕ)
    (l : List ℕ) (s : AggState) :
    (l.foldl
      (fun s d =>
        (List.range tsteps).foldl (fun s t => processPairs results d t s) s)
      s).rows
      = s.rows ++ l.flatMap (fun d =>
          (List.range tsteps).flatMap (fun t => cellRows results d t)) := by
  induction l generalizing s with
  | nil => simp
  | cons d l ih =>
      rw [List.foldl_cons, ih, foldl_timeLoop_rows]
      simp [List.append_assoc]

/-- Closed form of the whole aggregation loop: one triple of rows per
`(dimension, time step)`, in source iteration order, each computed from
the baseline freshly gathered at its own `(d, t)`. -/
lemma results_mse_eq (ds : List ℕ) (tsteps : ℕ)
    (results : List RepResult) :
    results_mse ds tsteps results
      = ds.flatMap (fun d =>
          (List.range tsteps).flatMap (fun t => cellRows results d t)) := by
  simp [results_mse, foldl_dims_rows]

lemma mem_results_mse_of (ds : List ℕ) (tsteps : ℕ)
    (results : List RepResult) (d t : ℕ) (type_fk : String) (qmc : Bool)
    (hd : d ∈ ds) (ht : t < tsteps)
    (hnr : (type_fk = "guided" ∧ qmc = true)
         ∨ (type_fk = "boot" ∧ qmc = false)
         ∨ (type_fk = "boot" ∧ qmc = true)) :
    Row.mk type_fk d qmc t
        (gainOf (mseOf results d t type_fk qmc)
          (npVarQ (gather results d t "guided" false)))
      ∈ results_mse ds tsteps results := by
  rw [results_mse_eq]
  refine List.mem_flatMap.2 ⟨d, hd, ?_⟩
  refine List.mem_flatMap.2 ⟨t, List.mem_range.2 ht, ?_⟩
  rcases hnr with ⟨h1, h2⟩ | ⟨h1, h2⟩ | ⟨h1, h2⟩ <;>
    subst h1 <;> subst h2 <;> simp [cellRows]

/-! ## Arithmetic helper lemmas -/

lemma foldl_npAddQ_map_fin (g : ℚ → ℚ) (l : List ℚ) (a : ℚ) :
    (l.map (fun e => NpFQ.fin (g e))).foldl npAddQ (.fin a)
      = .fin (a + (l.map g).sum) := by
  induction l generalizing a with
  | nil => simp
  | cons x l ih => simp [npAddQ, ih, add_assoc]

/-- Embedded `np.mean` over an array of finite values agrees with the plain
rational mean of those values. -/
lemma npMeanList_map_fin (g : ℚ → ℚ) (l : List ℚ) :
    npMeanList (l.map (fun e => NpFQ.fin (g e))) = npMeanQ (l.map g) := by
  unfold npMeanList npMeanQ
  rcases l with _ | ⟨x, l⟩
  · simp
  · simp [foldl_npAddQ_map_fin, npDivNat, npAddQ]

/-- When the reference gather is non-empty (so `base_mean` is finite), the
non-reference mean-squared error is the plain rational mean of the squared
deviations from the reference mean. -/
lemma mseOf_eq_of_base_fin (results : List RepResult) (d t : ℕ)
    (type_fk : String) (qmc : Bool) (m : ℚ)
    (hm : npMeanQ (gather results d t "guided" false) = .fin m) :
    mseOf results d t type_fk qmc
      = npMeanQ ((gather results d t type_fk qmc).map (fun e => (e - m) ^ 2)) := by
  unfold mseOf
  rw [hm]
  have : (fun e => npSqQ (npSubQ (NpFQ.fin e) (NpFQ.fin m)))
       = (fun e => NpFQ.fin ((e - m) ^ 2)) := by
    funext e
    simp [npSqQ, npSubQ, npAddQ, npNegQ, sub_eq_add_neg]
  rw [this, npMeanList_map_fin]

lemma gainOf_fin_fin (a b : ℚ) (ha : 0 < a) (hb : 0 < b) :
    gainOf (.fin a) (.fin b)
      = .fin (-(Real.logb 10 (a : ℝ)) + Real.logb 10 (b : ℝ)) := by
  rw [gainOf, npLog10, npLog10, if_pos ha, if_pos hb]
  rfl

lemma gainOf_zero_fin (b : ℚ) (hb : 0 < b) :
    gainOf (.fin 0) (.fin b) = .pinf := by
  rw [gainOf, npLog10, npLog10, if_neg (by norm_num), if_pos rfl, if_pos hb]
  rfl

lemma npAddR_nan_left (y : NpFR) : npAddR .nan y = .nan := by
  cases y <;> rfl

lemma gainOf_nan (x : NpFQ) : gainOf .nan x = .nan := by
  rw [gainOf, show npNegR (npLog10 .nan) = .nan from rfl, npAddR_nan_left]

/-! ## The spec's concrete scenario (section 8)

Reference (guided pseudo-random) estimates `[1, 1, 1, 3]` at `(d, t) =
(5, 0)`, bootstrap pseudo-random estimates `[2, 2, 2, 2]`, horizon 1.
`np.var([1,1,1,3]) = 3/4` (not `0.5625` as the spec computes), so
`log10_gain = -log10(1/4) + log10(3/4) = log10 3 ≈ 0.4771`, not
`log10 2.25 ≈ 0.3522`. -/

lemma reps_example_base_var :
    npVarQ (gather reps_example 5 0 "guided" false) = .fin (3/4) := by
  have h : gather reps_example 5 0 "guided" false = [1, 1, 1, 3] := by decide
  rw [h]
  norm_num [npVarQ]

lemma reps_example_mse :
    mseOf reps_example 5 0 "boot" false = .fin (1/4) := by
  have hm : npMeanQ (gather reps_example 5 0 "guided" false) = .fin (3/2) := by
    have h : gather reps_example 5 0 "guided" false = [1, 1, 1, 3] := by decide
    rw [h]
    norm_num [npMeanQ]
  rw [mseOf_eq_of_base_fin _ _ _ _ _ (3/2) hm]
  have h2 : gather reps_example 5 0 "boot" false = [2, 2, 2, 2] := by decide
  rw [h2]
  norm_num [npMeanQ]

lemma reps_example_gain :
    gainOf (.fin (1/4)) (.fin (3/4)) = .fin (Real.logb 10 3) := by
  rw [gainOf_fin_fin _ _ (by norm_num) (by norm_num)]
  congr 1
  have hc : ((1/4 : ℚ) : ℝ) = 1/4 := by norm_num
  have hc2 : ((3/4 : ℚ) : ℝ) = 3/4 := by norm_num
  rw [hc, hc2, neg_add_eq_sub, ← Real.logb_div (by norm_num) (by norm_num)]
  norm_num

lemma reps_example_row_mem :
    Row.mk "boot" 5 false 0 (.fin (Real.logb 10 3))
      ∈ results_mse [5] 1 reps_example := by
  have h := mem_results_mse_of [5] 1 reps_example 5 0 "boot" false
    (by simp) (by norm_num) (Or.inr (Or.inl ⟨rfl, rfl⟩))
  rw [reps_example_mse, reps_example_base_var, reps_example_gain] at h
  exact h

/-- C2 (counterexample): in the spec's concrete scenario the reference
variance of `[1, 1, 1, 3]` is `3/4 = 0.75`, not `0.5625` as the claim
states, and the emitted `log10_gain` is `log10 3 ≈ 0.4771`, which differs
from the claimed `log10(0.5625 / 0.25) ≈ 0.3522`. -/
theorem C2_counterexample_concrete_values :
    npVarQ (gather reps_example 5 0 "guided" false) = .fin (3/4)
    ∧ (3/4 : ℚ) ≠ 0.5625
    ∧ Row.mk "boot" 5 false 0 (.fin (Real.logb 10 3))
        ∈ results_mse [5] 1 reps_example
    ∧ Real.logb 10 3 ≠ Real.logb 10 (0.5625 / 0.25) :=
  ⟨reps_example_base_var, by norm_num, reps_example_row_mem,
   (Real.logb_lt_logb (by norm_num) (by norm_num)
     (by norm_num : (0.5625 / 0.25 : ℝ) < 3)).ne'⟩

/-- C2 (amended): for reference values `[1.0, 1.0, 1.0, 3.0]`
(`base_mean = 1.5`, `base_mse = 0.75`) and non-reference values
`[2.0, 2.0, 2.0, 2.0]` at the same cell, `mse = 0.25` and the emitted
value is `log10_gain = -log10(0.25) + log10(0.75) = log10 3 ≈ 0.4771`,
i.e. the `-log10(mse) + log10(base_mse)` formula with the corrected
baseline variance. -/
theorem C2_amended_concrete_gain :
    npMeanQ (gather reps_example 5 0 "guided" false) = .fin (3/2)
    ∧ npVarQ (gather reps_example 5 0 "guided" false) = .fin (3/4)
    ∧ mseOf reps_example 5 0 "boot" false = .fin (1/4)
    ∧ gainOf (.fin (1/4)) (.fin (3/4))
        = .fin (-(Real.logb 10 ((1/4 : ℚ) : ℝ)) + Real.logb 10 ((3/4 : ℚ) : ℝ))
    ∧ Row.mk "boot" 5 false 0 (.fin (Real.logb 10 3))
        ∈ results_mse [5] 1 reps_example := by
  refine ⟨?_, reps_example_base_var, reps_example_mse,
    gainOf_fin_fin _ _ (by norm_num) (by norm_num), reps_example_row_mem⟩
  have h : gather reps_example 5 0 "guided" false = [1, 1, 1, 3] := by decide
  rw [h]
  norm_num [npMeanQ]

/-! ## Degenerate cells: zero mse and empty replication sets

The source has no error handling at all in the aggregation loop:
`np.log10(0)` yields `-inf` (numpy only emits a runtime warning) and
`np.mean` of an empty selection yields `nan`, and the resulting
infinite / `nan` `log10_gain` values are appended to the table like any
other row. -/

lemma reps_degenerate_mean :
    npMeanQ (gather reps_degenerate 5 0 "guided" false) = .fin 1 := by
  have h : gather reps_degenerate 5 0 "guided" false = [0, 0, 2, 2] := by decide
  rw [h]
  norm_num [npMeanQ]

lemma reps_degenerate_var :
    npVarQ (gather reps_degenerate 5 0 "guided" false) = .fin 1 := by
  have h : gather reps_degenerate 5 0 "guided" false = [0, 0, 2, 2] := by decide
  rw [h]
  norm_num [npVarQ]

lemma reps_degenerate_mse :
    mseOf reps_degenerate 5 0 "boot" false = .fin 0 := by
  rw [mseOf_eq_of_base_fin _ _ _ _ _ 1 reps_degenerate_mean]
  have h : gather reps_degenerate 5 0 "boot" false = [1, 1, 1, 1] := by decide
  rw [h]
  norm_num [npMeanQ]

/-- C3 (counterexample): with all bootstrap estimates equal to the
reference mean (`mse = 0`) the aggregator does not raise any error: it
emits a row whose `log10_gain` is `+inf` into the result list, which
moreover still has its full three rows. -/
theorem C3_counterexample_inf_emitted :
    Row.mk "boot" 5 false 0 NpFR.pinf ∈ results_mse [5] 1 reps_degenerate
    ∧ (results_mse [5] 1 reps_degenerate).length = 3 := by
  constructor
  · have h := mem_results_mse_of [5] 1 reps_degenerate 5 0 "boot" false
      (by simp) (by norm_num) (Or.inr (Or.inl ⟨rfl, rfl⟩))
    rw [reps_degenerate_mse, reps_degenerate_var,
      gainOf_zero_fin 1 (by norm_num)] at h
    exact h
  · simp [results_mse_eq, cellRows, List.range_succ]

/-- C3 (amended): if a non-reference cell's estimates all equal the
(finite) reference mean while the reference variance is positive, the
aggregator emits `log10_gain = +inf` for that cell into the result list
(`np.log10(0) = -inf` raises nothing in numpy); no degenerate-statistic
error exists in the code. -/
theorem C3_amended_zero_mse_emits_inf (ds : List ℕ) (tsteps : ℕ)
    (results : List RepResult) (d t : ℕ) (type_fk : String) (qmc : Bool)
    (m v : ℚ)
    (hd : d ∈ ds) (ht : t < tsteps)
    (hnr : (type_fk = "guided" ∧ qmc = true)
         ∨ (type_fk = "boot" ∧ qmc = false)
         ∨ (type_fk = "boot" ∧ qmc = true))
    (hm : npMeanQ (gather results d t "guided" false) = .fin m)
    (hv : npVarQ (gather results d t "guided" false) = .fin v)
    (hvpos : 0 < v)
    (hne : gather results d t type_fk qmc ≠ [])
    (hall : ∀ e ∈ gather results d t type_fk qmc, e = m) :
    Row.mk type_fk d qmc t NpFR.pinf ∈ results_mse ds tsteps results := by
  have hmse : mseOf results d t type_fk qmc = .fin 0 := by
    rw [mseOf_eq_of_base_fin _ _ _ _ _ m hm, npMeanQ]
    have hlen : ((gather results d t type_fk qmc).map
        (fun e => (e - m) ^ 2)).length ≠ 0 := by
      simpa [List.length_eq_zero] using hne
    rw [if_neg hlen]
    have hs : ((gather results d t type_fk qmc).map
        (fun e => (e - m) ^ 2)).sum = 0 := by
      refine List.sum_eq_zero ?_
      intro x hx
      rcases List.mem_map.1 hx with ⟨e, he, rfl⟩
      rw [hall e he]
      ring
    rw [hs]
    simp
  have h := mem_results_mse_of ds tsteps results d t type_fk qmc hd ht hnr
  rw [hmse, hv, gainOf_zero_fin v hvpos] at h
  exact h

/-- Witness for the amended C3 at the concrete degenerate input. -/
theorem C3_amended_zero_mse_emits_inf_witness :
    npMeanQ (gather reps_degenerate 5 0 "guided" false) = .fin 1
    ∧ npVarQ (gather reps_degenerate 5 0 "guided" false) = .fin 1
    ∧ Row.mk "boot" 5 false 0 NpFR.pinf ∈ results_mse [5] 1 reps_degenerate :=
  ⟨reps_degenerate_mean, reps_degenerate_var,
    C3_amended_zero_mse_emits_inf [5] 1 reps_degenerate 5 0 "boot" false 1 1
      (by simp) (by norm_num) (Or.inr (Or.inl ⟨rfl, rfl⟩))
      reps_degenerate_mean reps_degenerate_var (by norm_num)
      (by decide) (by decide)⟩

lemma reps_missing_mse :
    mseOf reps_missing 5 0 "boot" false = .nan := by
  have h : gather reps_missing 5 0 "boot" false = [] := by decide
  rw [mseOf, h]
  simp [npMeanList]

/-- C4 (counterexample): when the collection contains no replications for
the `(boot, pseudo-random)` cell, the aggregator does not fail: it
computes `np.mean` of an empty selection (`nan`), emits a row with
`log10_gain = nan`, and the result list still has its full three rows. -/
theorem C4_counterexample_nan_emitted :
    Row.mk "boot" 5 false 0 NpFR.nan ∈ results_mse [5] 1 reps_missing
    ∧ (results_mse [5] 1 reps_missing).length = 3 := by
  constructor
  · have h := mem_results_mse_of [5] 1 reps_missing 5 0 "boot" false
      (by simp) (by norm_num) (Or.inr (Or.inl ⟨rfl, rfl⟩))
    rw [reps_missing_mse, gainOf_nan] at h
    exact h
  · simp [results_mse_eq, cellRows, List.range_succ]

/-- C4 (amended): for any declared non-reference cell whose gathered
estimate set is empty, the aggregator silently emits a row with
`log10_gain = nan` (numpy's mean of an empty array) instead of failing
with a missing-replications error. -/
theorem C4_amended_empty_cell_emits_nan (ds : List ℕ) (tsteps : ℕ)
    (results : List RepResult) (d t : ℕ) (type_fk : String) (qmc : Bool)
    (hd : d ∈ ds) (ht : t < tsteps)
    (hnr : (type_fk = "guided" ∧ qmc = true)
         ∨ (type_fk = "boot" ∧ qmc = false)
         ∨ (type_fk = "boot" ∧ qmc = true))
    (hempty : gather results d t type_fk qmc = []) :
    Row.mk type_fk d qmc t NpFR.nan ∈ results_mse ds tsteps results := by
  have hmse : mseOf results d t type_fk qmc = .nan := by
    rw [mseOf, hempty]
    simp [npMeanList]
  have h := mem_results_mse_of ds tsteps results d t type_fk qmc hd ht hnr
  rw [hmse, gainOf_nan] at h
  exact h

/-- Witness for the amended C4 at the concrete incomplete input. -/
theorem C4_amended_empty_cell_emits_nan_witness :
    gather reps_missing 5 0 "boot" false = []
    ∧ Row.mk "boot" 5 false 0 NpFR.nan ∈ results_mse [5] 1 reps_missing := by
  have hempty : gather reps_missing 5 0 "boot" false = [] := by decide
  exact ⟨hempty,
    C4_amended_empty_cell_emits_nan [5] 1 reps_missing 5 0 "boot" false
      (by simp) (by norm_num) (Or.inr (Or.inl ⟨rfl, rfl⟩)) hempty⟩

/-! ## Equal-distribution cells -/

lemma npMeanQ_perm (l1 l2 : List ℚ) (h : l1.Perm l2) :
    npMeanQ l1 = npMeanQ l2 := by
  unfold npMeanQ
  rw [h.length_eq, h.sum_eq]

/-- Embedded `np.var` is the mean of the squared deviations from the mean. -/
lemma npVarQ_eq_mean_sq (l : List ℚ) :
    npVarQ l = npMeanQ (l.map (fun x => (x - l.sum / l.length) ^ 2)) := by
  unfold npVarQ npMeanQ
  rcases l with _ | ⟨x, l⟩
  · simp
  · simp

lemma gainOf_zero_zero : gainOf (.fin 0) (.fin 0) = .nan := by
  rw [gainOf, npLog10, if_neg (by norm_num : ¬(0:ℚ) < 0), if_pos rfl]
  rfl

/-- C8 (counterexample): the bootstrap cell's estimates `[1, 1]` are
identical to the reference cell's estimates, yet the emitted
`log10_gain` is `nan` (since `mse = base_mse = 0`, the gain is
`-log10(0) + log10(0) = inf + (-inf) = nan`), not `0`. -/
theorem C8_counterexample_zero_variance :
    gather reps_equal 5 0 "boot" false = gather reps_equal 5 0 "guided" false
    ∧ Row.mk "boot" 5 false 0 NpFR.nan ∈ results_mse [5] 1 reps_equal
    ∧ NpFR.nan ≠ NpFR.fin 0 := by
  have hb : gather reps_equal 5 0 "boot" false = [1, 1] := by decide
  have hg : gather reps_equal 5 0 "guided" false = [1, 1] := by decide
  have hm : npMeanQ (gather reps_equal 5 0 "guided" false) = .fin 1 := by
    rw [hg]
    norm_num [npMeanQ]
  have hv : npVarQ (gather reps_equal 5 0 "guided" false) = .fin 0 := by
    rw [hg]
    norm_num [npVarQ]
  have hmse : mseOf reps_equal 5 0 "boot" false = .fin 0 := by
    rw [mseOf_eq_of_base_fin _ _ _ _ _ 1 hm, hb]
    norm_num [npMeanQ]
  refine ⟨hb.trans hg.symm, ?_, fun h => NpFR.noConfusion h⟩
  have h := mem_results_mse_of [5] 1 reps_equal 5 0 "boot" false
    (by simp) (by norm_num) (Or.inr (Or.inl ⟨rfl, rfl⟩))
  rw [hmse, hv, gainOf_zero_zero] at h
  exact h

/-- C8 (amended): if a non-reference cell's estimates are a permutation of
the reference cell's estimates at the same `(d, t)` and the reference
variance is positive, then in exact arithmetic `mse = base_mse` and the
emitted `log10_gain` is `0`.  (When the common variance is zero, the code
instead emits `nan`, see the counterexample.) -/
theorem C8_amended_equal_multiset_gain_zero (ds : List ℕ) (tsteps : ℕ)
    (results : List RepResult) (d t : ℕ) (type_fk : String) (qmc : Bool)
    (v : ℚ)
    (hd : d ∈ ds) (ht : t < tsteps)
    (hnr : (type_fk = "guided" ∧ qmc = true)
         ∨ (type_fk = "boot" ∧ qmc = false)
         ∨ (type_fk = "boot" ∧ qmc = true))
    (hperm : (gather results d t type_fk qmc).Perm
               (gather results d t "guided" false))
    (hv : npVarQ (gather results d t "guided" false) = .fin v)
    (hvpos : 0 < v) :
    mseOf results d t type_fk qmc = npVarQ (gather results d t "guided" false)
    ∧ Row.mk type_fk d qmc t (NpFR.fin 0) ∈ results_mse ds tsteps results := by
  have hrlen : (gather results d t "guided" false).length ≠ 0 := by
    intro h0
    rw [npVarQ, if_pos h0] at hv
    exact NpFQ.noConfusion hv
  have hm : npMeanQ (gather results d t "guided" false)
      = .fin ((gather results d t "guided" false).sum
              / (gather results d t "guided" false).length) := by
    rw [npMeanQ, if_neg hrlen]
  have hmse : mseOf results d t type_fk qmc
      = npVarQ (gather results d t "guided" false) := by
    rw [mseOf_eq_of_base_fin _ _ _ _ _ _ hm, npVarQ_eq_mean_sq]
    exact npMeanQ_perm _ _
      (hperm.map (fun e => (e - (gather results d t "guided" false).sum
        / (gather results d t "guided" false).length) ^ 2))
  refine ⟨hmse, ?_⟩
  have h := mem_results_mse_of ds tsteps results d t type_fk qmc hd ht hnr
  rw [hmse, hv, gainOf_fin_fin v v hvpos hvpos] at h
  rw [show (-(Real.logb 10 (v : ℝ)) + Real.logb 10 (v : ℝ)) = 0 by ring] at h
  exact h

/-- Witness for the amended C8 at a concrete permuted input. -/
theorem C8_amended_equal_multiset_gain_zero_witness :
    (gather reps_perm 5 0 "boot" false).Perm
      (gather reps_perm 5 0 "guided" false)
    ∧ mseOf reps_perm 5 0 "boot" false
        = npVarQ (gather reps_perm 5 0 "guided" false)
    ∧ Row.mk "boot" 5 false 0 (NpFR.fin 0) ∈ results_mse [5] 1 reps_perm := by
  have hperm : (gather reps_perm 5 0 "boot" false).Perm
      (gather reps_perm 5 0 "guided" false) := by decide
  have hv : npVarQ (gather reps_perm 5 0 "guided" false) = .fin (3/4) := by
    have h : gather reps_perm 5 0 "guided" false = [1, 1, 1, 3] := by decide
    rw [h]
    norm_num [npVarQ]
  have h := C8_amended_equal_multiset_gain_zero [5] 1 reps_perm 5 0 "boot" false
    (3/4) (by simp) (by norm_num) (Or.inr (Or.inl ⟨rfl, rfl⟩))
    hperm hv (by norm_num)
  exact ⟨hperm, h.1, h.2⟩

/-! ## The main functional claims -/

/-- C1: for every swept dimension, every time step and every
non-reference category, the aggregator emits the row whose mean-squared
error is the mean over that category's gathered estimates of the squared
deviation from the *reference* category's empirical mean (`base_mean` =
mean of the guided pseudo-random estimates at the same `(d, t)`), not
from the category's own mean. -/
theorem C1_mse_deviation_from_reference_mean (ds : List ℕ) (tsteps : ℕ)
    (results : List RepResult) (d t : ℕ) (type_fk : String) (qmc : Bool)
    (hd : d ∈ ds) (ht : t < tsteps)
    (hnr : (type_fk = "guided" ∧ qmc = true)
         ∨ (type_fk = "boot" ∧ qmc = false)
         ∨ (type_fk = "boot" ∧ qmc = true)) :
    Row.mk type_fk d qmc t
      (gainOf
        (npMeanList ((gather results d t type_fk qmc).map
          (fun e => npSqQ (npSubQ (.fin e)
            (npMeanQ (gather results d t "guided" false))))))
        (npVarQ (gather results d t "guided" false)))
      ∈ results_mse ds tsteps results :=
  mem_results_mse_of ds tsteps results d t type_fk qmc hd ht hnr

/-- Witness for C1 at the concrete section-8 scenario input. -/
theorem C1_mse_deviation_from_reference_mean_witness :
    (5 ∈ [5] ∧ 0 < 1)
    ∧ Row.mk "boot" 5 false 0
        (gainOf
          (npMeanList ((gather reps_example 5 0 "boot" false).map
            (fun e => npSqQ (npSubQ (.fin e)
              (npMeanQ (gather reps_example 5 0 "guided" false))))))
          (npVarQ (gather reps_example 5 0 "guided" false)))
        ∈ results_mse [5] 1 reps_example :=
  ⟨⟨by simp, by norm_num⟩,
    C1_mse_deviation_from_reference_mean [5] 1 reps_example 5 0 "boot" false
      (by simp) (by norm_num) (Or.inr (Or.inl ⟨rfl, rfl⟩))⟩

/-- C5: the baseline statistics are computed strictly before any
non-reference cell of the same `(d, t)`: processing the four categories of
one `(d, t)` from an arbitrary incoming loop state `s` always (1) ends
with `base_mean` / `base_mse` equal to the statistics freshly gathered
from the reference category at this `(d, t)`, and (2) appends exactly the
three non-reference rows computed from those fresh statistics — the
incoming `s.base_mean` / `s.base_mse` are never read by them. -/
theorem C5_baseline_computed_first (results : List RepResult) (d t : ℕ)
    (s : AggState) :
    processPairs results d t s
      = ⟨npMeanQ (gather results d t "guided" false),
         npVarQ (gather results d t "guided" false),
         s.rows ++ cellRows results d t⟩ :=
  processPairs_eq results d t s

/-- C9: the aggregation + table-building stage is a pure function of the
replication collection: two runs on the same collection produce identical
tables (rows, values, labels and order). -/
theorem C9_deterministic_table (ds : List ℕ) (tsteps : ℕ)
    (results : List RepResult) (t1 t2 : List TableRow)
    (h1 : t1 = df ds tsteps results) (h2 : t2 = df ds tsteps results) :
    t1 = t2 :=
  h1.trans h2.symm

/-- Witness for C9 at a concrete input. -/
theorem C9_deterministic_table_witness :
    df [5] 1 reps_example = df [5] 1 reps_example :=
  C9_deterministic_table [5] 1 reps_example _ _ rfl rfl

/-- C10: no cell ever uses stale baseline values: every row the
aggregator emits carries the `log10_gain` computed from the baseline
statistics of its *own* `(dim, t)` — the mutable `base_mean` / `base_mse`
are freshly recomputed within each `(d, t)` iteration before any
non-reference cell reads them. -/
theorem C10_no_stale_baseline (ds : List ℕ) (tsteps : ℕ)
    (results : List RepResult) (r : Row)
    (hr : r ∈ results_mse ds tsteps results) :
    r.log10_gain
      = gainOf (mseOf results r.dim r.t r.fk r.qmc)
          (npVarQ (gather results r.dim r.t "guided" false)) := by
  rw [results_mse_eq] at hr
  rcases List.mem_flatMap.1 hr with ⟨d, hd, hr2⟩
  rcases List.mem_flatMap.1 hr2 with ⟨t, ht, hr3⟩
  simp only [cellRows, List.mem_cons, List.not_mem_nil, or_false] at hr3
  rcases hr3 with rfl | rfl | rfl <;> rfl

/-- Witness for C10 at a concrete input. -/
theorem C10_no_stale_baseline_witness :
    (⟨"guided", 5, true, 0, NpFR.nan⟩ : Row) ∈ results_mse [5] 1 []
    ∧ (⟨"guided", 5, true, 0, NpFR.nan⟩ : Row).log10_gain
        = gainOf (mseOf [] 5 0 "guided" true)
            (npVarQ (gather [] 5 0 "guided" false)) := by
  have hg1 : gainOf (mseOf [] 5 0 "guided" true)
      (npVarQ (gather [] 5 0 "guided" false)) = NpFR.nan := by
    rw [show mseOf [] 5 0 "guided" true = .nan from by
      rw [mseOf]; simp [gather, npMeanList], gainOf_nan]
  have hmem : (⟨"guided", 5, true, 0, NpFR.nan⟩ : Row)
      ∈ results_mse [5] 1 [] := by
    rw [results_mse_eq]
    simp [cellRows, List.range_succ, hg1]
  exact ⟨hmem, C10_no_stale_baseline [5] 1 [] _ hmem⟩

/-! ## The registry and the table shape -/

/-- C7: the experiment registry built from the swept dimensions and the
two algorithm kinds has exactly `2 × |dimensions|` entries for any
dimension list; for the script's sweep `[5, 10, 15, 20]` its name list is
duplicate-free and is exactly the insertion-ordered list
`boot_5, guided_5, boot_10, guided_10, boot_15, guided_15, boot_20,
guided_20`. -/
theorem C7_registry_size_names_order :
    (∀ ds : List ℕ, (models ds).length = 2 * ds.length)
    ∧ ((models dims).map Prod.fst).Nodup
    ∧ (models dims).map Prod.fst
        = ["boot_5", "guided_5", "boot_10", "guided_10",
           "boot_15", "guided_15", "boot_20", "guided_20"] := by
  refine ⟨?_, by decide, by decide⟩
  intro ds
  induction ds with
  | nil => rfl
  | cons d ds ih =>
      rw [models, List.flatMap_cons, List.length_append, ← models, ih]
      simp only [List.length_cons, List.length_nil]
      ring

lemma mem_cellRows_keys (results : List RepResult) (d t : ℕ)
    (k : ℕ × ℕ × String × Bool)
    (hk : k ∈ (cellRows results d t).map rowKey) :
    k.1 = d ∧ k.2.1 = t := by
  simp only [cellRows, rowKey, List.map_cons, List.map_nil, List.mem_cons,
    List.not_mem_nil, or_false] at hk
  rcases hk with rfl | rfl | rfl <;> exact ⟨rfl, rfl⟩

lemma nodup_cellRows_keys (results : List RepResult) (d t : ℕ) :
    ((cellRows results d t).map rowKey).Nodup := by
  simp [cellRows, rowKey]

lemma nodup_inner_keys (results : List RepResult) (tsteps : ℕ) (d : ℕ) :
    (((List.range tsteps).flatMap (fun t => cellRows results d t)).map
      rowKey).Nodup := by
  rw [List.map_flatMap]
  refine List.nodup_flatMap.2 ⟨fun t _ => nodup_cellRows_keys results d t, ?_⟩
  refine List.Pairwise.imp ?_ (List.pairwise_lt_range tsteps)
  intro t1 t2 hlt k hk1 hk2
  have h1 := (mem_cellRows_keys results d t1 k hk1).2
  have h2 := (mem_cellRows_keys results d t2 k hk2).2
  exact absurd (h1.symm.trans h2) hlt.ne

lemma mem_inner_keys (results : List RepResult) (tsteps : ℕ) (d : ℕ)
    (k : ℕ × ℕ × String × Bool)
    (hk : k ∈ (((List.range tsteps).flatMap
      (fun t => cellRows results d t)).map rowKey)) :
    k.1 = d := by
  rw [List.map_flatMap] at hk
  rcases List.mem_flatMap.1 hk with ⟨t, _, hk2⟩
  exact (mem_cellRows_keys results d t k hk2).1

/-- C6: for any duplicate-free dimension sweep, the final table has
exactly `|dimensions| × T × 3` rows, its (dimension, time step, kind,
mode) keys are pairwise distinct, every non-reference grid cell appears,
and the reference category (guided, pseudo-random) never appears as a
row. -/
theorem C6_table_rows_exact_grid (ds : List ℕ) (tsteps : ℕ)
    (results : List RepResult) (hnd : ds.Nodup) :
    (df ds tsteps results).length = ds.length * tsteps * 3
    ∧ ((df ds tsteps results).map (fun tr => rowKey tr.row)).Nodup
    ∧ (∀ d ∈ ds, ∀ t < tsteps,
        ∀ p ∈ [("guided", true), ("boot", false), ("boot", true)],
          ∃ tr ∈ df ds tsteps results, rowKey tr.row = (d, t, p.1, p.2))
    ∧ (∀ tr ∈ df ds tsteps results,
        ¬(tr.row.fk = "guided" ∧ tr.row.qmc = false)) := by
  have hkeys : (df ds tsteps results).map (fun tr => rowKey tr.row)
      = (results_mse ds tsteps results).map rowKey := by
    rw [df, List.map_map]
    rfl
  refine ⟨?_, ?_, ?_, ?_⟩
  · rw [df, List.length_map, results_mse_eq, List.length_flatMap]
    have hinner : ∀ d : ℕ,
        ((List.range tsteps).flatMap (fun t => cellRows results d t)).length
          = tsteps * 3 := by
      intro d
      rw [List.length_flatMap]
      have h3 : (List.range tsteps).map
          (List.length ∘ fun t => cellRows results d t)
          = (List.range tsteps).map (fun _ => 3) :=
        List.map_congr_left (fun t _ => rfl)
      rw [h3, List.map_const', List.sum_replicate, List.length_range,
        smul_eq_mul]
    have hout : ds.map
        (List.length ∘ fun d =>
          (List.range tsteps).flatMap (fun t => cellRows results d t))
        = ds.map (fun _ => tsteps * 3) :=
      List.map_congr_left (fun d _ => hinner d)
    rw [hout, List.map_const', List.sum_replicate, smul_eq_mul, mul_assoc]
  · rw [hkeys, results_mse_eq, List.map_flatMap]
    refine List.nodup_flatMap.2
      ⟨fun d _ => nodup_inner_keys results tsteps d, ?_⟩
    refine List.Pairwise.imp ?_ hnd
    intro d1 d2 hne k hk1 hk2
    exact hne ((mem_inner_keys results tsteps d1 k hk1).symm.trans
      (mem_inner_keys results tsteps d2 k hk2))
  · intro d hd t ht p hp
    have hmem : ∀ fk qmc,
        (fk = "guided" ∧ qmc = true) ∨ (fk = "boot" ∧ qmc = false)
          ∨ (fk = "boot" ∧ qmc = true) →
        ∃ tr ∈ df ds tsteps results, rowKey tr.row = (d, t, fk, qmc) := by
      intro fk qmc hnr
      refine ⟨⟨Row.mk fk d qmc t
        (gainOf (mseOf results d t fk qmc)
          (npVarQ (gather results d t "guided" false))),
        fk ++ (if qmc then " SQMC" else " SMC")⟩, ?_, rfl⟩
      rw [df]
      exact List.mem_map_of_mem _
        (mem_results_mse_of ds tsteps results d t fk qmc hd ht hnr)
    rcases List.mem_cons.1 hp with rfl | hp2
    · exact hmem "guided" true (Or.inl ⟨rfl, rfl⟩)
    rcases List.mem_cons.1 hp2 with rfl | hp3
    · exact hmem "boot" false (Or.inr (Or.inl ⟨rfl, rfl⟩))
    rcases List.mem_cons.1 hp3 with rfl | hp4
    · exact hmem "boot" true (Or.inr (Or.inr ⟨rfl, rfl⟩))
    · exact absurd hp4 (List.not_mem_nil _)
  · rintro tr htr ⟨hfk, hqmc⟩
    rw [df] at htr
    rcases List.mem_map.1 htr with ⟨r, hr, rfl⟩
    rw [results_mse_eq] at hr
    rcases List.mem_flatMap.1 hr with ⟨d, _, hr2⟩
    rcases List.mem_flatMap.1 hr2 with ⟨t, _, hr3⟩
    simp only [cellRows, List.mem_cons, List.not_mem_nil, or_false] at hr3
    rcases hr3 with rfl | rfl | rfl <;> simp_all

/-- Witness for C6 at the script's actual configuration
(`dims = [5, 10, 15, 20]`, `T = 50`, so `4 × 50 × 3 = 600` rows). -/
theorem C6_table_rows_exact_grid_witness :
    dims.Nodup
    ∧ dims.length * T * 3 = 600
    ∧ ((df dims T []).length = dims.length * T * 3
        ∧ ((df dims T []).map (fun tr => rowKey tr.row)).Nodup
        ∧ (∀ d ∈ dims, ∀ t < T,
            ∀ p ∈ [("guided", true), ("boot", false), ("boot", true)],
              ∃ tr ∈ df dims T [], rowKey tr.row = (d, t, p.1, p.2))
        ∧ (∀ tr ∈ df dims T [],
            ¬(tr.row.fk = "guided" ∧ tr.row.qmc = false))) :=
  ⟨by decide, by decide, C6_table_rows_exact_grid dims T [] (by decide)⟩
